import Mathlib

/-!
Shallow embedding of the gene-expression analysis scripts
(working-set/: deseq2-to-csv.py, deg_heatmaps.py, gene_subsets.py,
overlap_normalization.py, filter_panther_outputs.py, get_gene_ids.py).

Tables are lists of records, floats are rationals, nullable cells
(NaN after pandas numeric coercion, or fields introduced by an outer
join) are `Option ℚ`.  Pandas comparisons against NaN are false, which
is modelled by `Option`-aware boolean predicates that return `false`
on `none`.
-/

/-- Row of the table read by `process_deseq_file` in deseq2-to-csv.py:
columns gene_id, baseMean, log2FoldChange, lfcSE, stat, pvalue, padj,
with log2FoldChange and padj coerced to numeric (NaN = `none`). -/
structure DeseqRow where
  gene_id : String
  baseMean : Option ℚ
  log2FoldChange : Option ℚ
  lfcSE : Option ℚ
  stat : Option ℚ
  pvalue : Option ℚ
  padj : Option ℚ
  deriving DecidableEq, Repr

/-- Pandas semantics of `series < t` on a possibly-NaN cell: false on NaN. -/
def optLtB (x : Option ℚ) (t : ℚ) : Bool :=
  match x with
  | some v => decide (v < t)
  | none => false

/-- Pandas semantics of `series <= t` on a possibly-NaN cell: false on NaN. -/
def optLeB (x : Option ℚ) (t : ℚ) : Bool :=
  match x with
  | some v => decide (v ≤ t)
  | none => false

/-- Pandas semantics of `series.abs() >= t` on a possibly-NaN cell. -/
def optAbsGeB (x : Option ℚ) (t : ℚ) : Bool :=
  match x with
  | some v => decide (t ≤ |v|)
  | none => false

/-- The significance filter of `process_deseq_file` (deseq2-to-csv.py
lines 23-26): `df[(df["padj"] < padj_threshold) &
(df["log2FoldChange"].abs() >= lfc_threshold)]`. -/
def process_deseq_filter (lfc_threshold padj_threshold : ℚ)
    (df : List DeseqRow) : List DeseqRow :=
  df.filter fun r => optLtB r.padj padj_threshold && optAbsGeB r.log2FoldChange lfc_threshold

/-- The regulation labelling of `process_deseq_file` (deseq2-to-csv.py
lines 29-31): `lambda x: "up" if x >= lfc_threshold else "down"`. -/
def regulation_label (lfc_threshold x : ℚ) : String :=
  if lfc_threshold ≤ x then "up" else "down"

/-- Canonical row produced by `load_deseq2_tabular` in deg_heatmaps.py:
columns gene, log2FC, padj, with rows of missing values already dropped
(`dropna`), hence plain rationals. -/
structure HeatRow where
  gene : String
  log2FC : ℚ
  padj : ℚ
  deriving DecidableEq, Repr

/-- The significance filter of `plot_deg_heatmap` (deg_heatmaps.py lines
104-105): `df[(df["padj"] <= padj_thresh) & (df["log2FC"].abs() >= lfc_thresh)]`. -/
def plot_deg_heatmap_filter (padj_thresh lfc_thresh : ℚ)
    (df : List HeatRow) : List HeatRow :=
  df.filter fun r => decide (r.padj ≤ padj_thresh) && decide (lfc_thresh ≤ |r.log2FC|)

/-- The up split of `plot_deg_heatmap` (deg_heatmaps.py lines 107-110):
`sig[sig["log2FC"] > 0]`, applied alike for heat and salt. -/
def deg_up_split (sig : List HeatRow) : List HeatRow :=
  sig.filter fun r => decide (0 < r.log2FC)

/-- The down split of `plot_deg_heatmap` (deg_heatmaps.py lines 107-110):
`sig[sig["log2FC"] < 0]`, applied alike for heat and salt. -/
def deg_down_split (sig : List HeatRow) : List HeatRow :=
  sig.filter fun r => decide (r.log2FC < 0)

/-- The summary record returned by `overlap_stats` in
overlap_normalization.py. -/
structure OverlapStats where
  n_A : ℕ
  n_B : ℕ
  n_intersection : ℕ
  n_union : ℕ
  jaccard : ℚ
  overlap_coefficient : ℚ
  pct_of_A_shared : ℚ
  pct_of_B_shared : ℚ
  deriving DecidableEq, Repr

/-- `overlap_stats` (overlap_normalization.py lines 35-52) on two finite
sets of GO-term strings.  Python truthiness `if union` is union-nonempty,
`if min(len(A), len(B))` is min-card-nonzero, `if len(A)` is A-nonempty. -/
def overlap_stats (A B : Finset String) : OverlapStats :=
  let inter := A ∩ B
  let union := A ∪ B
  ⟨A.card, B.card, inter.card, union.card,
    if union.card ≠ 0 then (inter.card : ℚ) / (union.card : ℚ) else 0,
    if min A.card B.card ≠ 0 then (inter.card : ℚ) / ((min A.card B.card : ℕ) : ℚ) else 0,
    if A.card ≠ 0 then (inter.card : ℚ) / (A.card : ℚ) * 100 else 0,
    if B.card ≠ 0 then (inter.card : ℚ) / (B.card : ℚ) * 100 else 0⟩

/-- Row of a significant-gene CSV as required by `load_sig_file` in
gene_subsets.py / merge_datasets.py: columns gene_id, log2FoldChange,
regulation, padj must exist; numeric cells may be missing. -/
structure SigRow where
  gene_id : String
  log2FoldChange : Option ℚ
  padj : Option ℚ
  regulation : Option String
  deriving DecidableEq, Repr

/-- Row of the outer-merged table built in `sort_gene_sets`
(gene_subsets.py lines 28-36): the non-key columns of both sides,
suffixed `_salt` / `_heat`, `none` where the side is absent. -/
structure MergedRow where
  gene_id : String
  log2FoldChange_salt : Option ℚ
  padj_salt : Option ℚ
  regulation_salt : Option String
  log2FoldChange_heat : Option ℚ
  padj_heat : Option ℚ
  regulation_heat : Option String
  deriving DecidableEq, Repr

/-- First row of `df` whose gene_id is `g` (the join partner lookup). -/
def findRow (df : List SigRow) (g : String) : Option SigRow :=
  df.find? fun r => r.gene_id = g

/-- Merged row contributed by a left (salt) row: its heat columns come
from the matching heat row if any, else null. -/
def mergeLeftRow (sig_heat : List SigRow) (s : SigRow) : MergedRow :=
  match findRow sig_heat s.gene_id with
  | some h => ⟨s.gene_id, s.log2FoldChange, s.padj, s.regulation,
      h.log2FoldChange, h.padj, h.regulation⟩
  | none => ⟨s.gene_id, s.log2FoldChange, s.padj, s.regulation, none, none, none⟩

/-- Merged row contributed by a heat row unmatched on the salt side. -/
def mergeRightRow (h : SigRow) : MergedRow :=
  ⟨h.gene_id, none, none, none, h.log2FoldChange, h.padj, h.regulation⟩

/-- `pd.merge(sig_salt, sig_heat, on="gene_id", how="outer",
suffixes=("_salt", "_heat"))` of gene_subsets.py lines 28-36, for tables
whose gene_id values are unique (the setting of the claims): every salt
row joined with its heat partner if any, followed by the heat rows with
no salt partner. -/
def merge_outer (sig_salt sig_heat : List SigRow) : List MergedRow :=
  sig_salt.map (mergeLeftRow sig_heat) ++
    (sig_heat.filter fun h => (findRow sig_salt h.gene_id).isNone).map mergeRightRow

/-- `merged.dropna(subset=["log2FoldChange_salt", "log2FoldChange_heat"])`
(gene_subsets.py line 39). -/
def both_genes (merged : List MergedRow) : List MergedRow :=
  merged.filter fun r => r.log2FoldChange_salt.isSome && r.log2FoldChange_heat.isSome

/-- `merged[merged["log2FoldChange_heat"].isna() &
merged["log2FoldChange_salt"].notna()]` (gene_subsets.py lines 42-45). -/
def only_salt_genes (merged : List MergedRow) : List MergedRow :=
  merged.filter fun r => r.log2FoldChange_heat.isNone && r.log2FoldChange_salt.isSome

/-- `merged[merged["log2FoldChange_salt"].isna() &
merged["log2FoldChange_heat"].notna()]` (gene_subsets.py lines 47-49). -/
def only_heat_genes (merged : List MergedRow) : List MergedRow :=
  merged.filter fun r => r.log2FoldChange_salt.isNone && r.log2FoldChange_heat.isSome

/-- Row of a PANTHER overrepresentation table after `load_panther`
renamed its FDR column (filter_panther_outputs.py). -/
structure GORow where
  term : String
  FDR : ℚ
  deriving DecidableEq, Repr

/-- The GO-term significance filter of filter_panther_outputs.py lines
40-44: `df[df["FDR"] <= alpha]`. -/
def panther_sig_filter (alpha : ℚ) (df : List GORow) : List GORow :=
  df.filter fun r => decide (r.FDR ≤ alpha)

/-- Ordering used by pandas `nsmallest(n, "FDR")` with keep="first":
strictly smaller FDR first, ties resolved by original position. -/
def fdrPosLe (a b : ℕ × GORow) : Bool :=
  decide (a.2.FDR < b.2.FDR) || (decide (a.2.FDR = b.2.FDR) && decide (a.1 ≤ b.1))

/-- The position-decorated ranking behind `nsmallest`: the rows tagged
with their input positions, stably sorted by ascending FDR, truncated
to the first n. -/
def nsmallest_ranked (n : ℕ) (df : List GORow) : List (ℕ × GORow) :=
  (df.enum.mergeSort fdrPosLe).take n

/-- `df.nsmallest(n, "FDR")` (filter_panther_outputs.py lines 47-51 and
panther_bar_plots.py plot_top15_bar): the n rows of smallest FDR,
ties broken by input order, all rows when n exceeds the length. -/
def nsmallest (n : ℕ) (df : List GORow) : List GORow :=
  (nsmallest_ranked n df).map Prod.snd

/-- The header tokens `load_deseq2_tabular` looks for (deg_heatmaps.py
line 44): a first data line containing any of them is a header row. -/
def known_header_tokens : List String :=
  ["log2FoldChange", "padj", "pvalue", "baseMean"]

/-- `any(t in {"log2FoldChange", "padj", "pvalue", "baseMean"} for t in tokens)`
(deg_heatmaps.py line 44). -/
def header_like (tokens : List String) : Bool :=
  tokens.any fun t => known_header_tokens.contains t

/-- Positional column names assigned when at least 7 columns are present
(deg_heatmaps.py lines 53-56: the data is truncated to its first
7 columns and named). -/
def deseq7_names : List String :=
  ["gene", "baseMean", "log2FoldChange", "lfcSE", "stat", "pvalue", "padj"]

/-- Positional column names assigned when exactly 6 columns are present
(deg_heatmaps.py lines 57-59). -/
def deseq6_names : List String :=
  ["gene", "baseMean", "log2FoldChange", "lfcSE", "pvalue", "padj"]

/-- The headerless branch of `load_deseq2_tabular` (deg_heatmaps.py lines
49-65): `if df.shape[1] >= 7` assign the 7 canonical names to the first 7
columns, `elif df.shape[1] == 6` assign the 6 names, else raise. -/
def assign_headerless_names (ncols : ℕ) : Except String (List String) :=
  if 7 ≤ ncols then Except.ok deseq7_names
  else if ncols = 6 then Except.ok deseq6_names
  else Except.error "unexpected column count for DESeq2-style output"

/-- Column-naming outcome of `load_deseq2_tabular` given the tokens of the
first non-blank, non-comment line and the column count: a header-like
first line is used as the header, otherwise names are positional. -/
def load_deseq2_names (tokens : List String) (ncols : ℕ) :
    Except String (List String) :=
  if header_like tokens then Except.ok tokens
  else assign_headerless_names ncols

/-- True on `Except.error`. -/
def isErr {ε α : Type} : Except ε α → Bool
  | Except.error _ => true
  | Except.ok _ => false

/-- Maximum of a list of rationals (np.nanmax on NaN-free data);
meaningful only on nonempty lists, where the base case is unreached. -/
def listMaxQ : List ℚ → ℚ
  | [] => 0
  | [x] => x
  | x :: y :: xs => max x (listMaxQ (y :: xs))

/-- `float(np.nanmax(np.abs(pivot.values))) if pivot.size else 1.0`
(deg_heatmaps.py line 150), the matrix as its list of rows. -/
def vmax_raw (m : List (List ℚ)) : ℚ :=
  if m.flatten.isEmpty then 1 else listMaxQ (m.flatten.map fun x => |x|)

/-- The colour-scale bound of `plot_deg_heatmap` (deg_heatmaps.py lines
150-152): the raw bound, replaced by 1.0 when it is 0. -/
def vmax (m : List (List ℚ)) : ℚ :=
  if vmax_raw m = 0 then 1 else vmax_raw m

/-- `vmin=-vmax` passed to imshow (deg_heatmaps.py line 159). -/
def vmin (m : List (List ℚ)) : ℚ := -vmax m

/-- Python `c.startswith(p)` on column-name strings, character-wise. -/
def py_startswith (c p : String) : Bool :=
  p.data.isPrefixOf c.data

/-- Python `c.endswith(s)` on column-name strings, character-wise. -/
def py_endswith (c s : String) : Bool :=
  s.data.reverse.isPrefixOf c.data.reverse

/-- `[c for c in df.columns if c.startswith("regulation")]`
(get_gene_ids.py line 19). -/
def reg_cols (cols : List String) : List String :=
  cols.filter fun c => py_startswith c "regulation"

/-- The regulation-column choice of `save_up_down` (get_gene_ids.py lines
16-35): error when no column starts with "regulation"; otherwise the
first regulation column ending with the given dataset tag, defaulting to
the first regulation column. -/
def save_up_down_reg_col (cols : List String) (tag : String) :
    Except String String :=
  match reg_cols cols with
  | [] => Except.error "No regulation column found"
  | c0 :: rest =>
      Except.ok (((c0 :: rest).find? fun c => py_endswith c tag).getD c0)

/-! ## Theorems -/

/-- C3: overlap_stats returns jaccard = |A∩B| / |A∪B| with jaccard = 0 when
the union is empty, and overlap_coefficient = |A∩B| / min(|A|,|B|) with
overlap_coefficient = 0 when either set is empty. -/
theorem C3_overlap_stats_formulas (A B : Finset String) :
    (A ∪ B = ∅ → (overlap_stats A B).jaccard = 0) ∧
    ((A ∪ B).Nonempty →
      (overlap_stats A B).jaccard = ((A ∩ B).card : ℚ) / ((A ∪ B).card : ℚ)) ∧
    ((A = ∅ ∨ B = ∅) → (overlap_stats A B).overlap_coefficient = 0) ∧
    (A.Nonempty → B.Nonempty →
      (overlap_stats A B).overlap_coefficient =
        ((A ∩ B).card : ℚ) / ((min A.card B.card : ℕ) : ℚ)) := by
  refine ⟨fun h => ?_, fun h => ?_, fun h => ?_, fun hA hB => ?_⟩
  · have : (A ∪ B).card = 0 := by simp [h]
    simp [overlap_stats, this]
  · have : (A ∪ B).card ≠ 0 := by
      simpa [Finset.card_eq_zero] using h.ne_empty
    simp [overlap_stats, this]
  · have : min A.card B.card = 0 := by
      rcases h with h | h <;> simp [h]
    simp [overlap_stats, this]
  · have : min A.card B.card ≠ 0 := by
      simp [Nat.min_eq_zero_iff, Finset.card_eq_zero, hA.ne_empty, hB.ne_empty]
    simp [overlap_stats, this]

/-- Concrete instantiation of C3 on the spec example sets
A = [g1,g2,g3], B = [g2,g3,g4]: jaccard 2/4, overlap coefficient 2/3. -/
theorem C3_overlap_stats_formulas_witness :
    (overlap_stats {"g1", "g2", "g3"} {"g2", "g3", "g4"}).jaccard = 1/2 ∧
    (overlap_stats {"g1", "g2", "g3"} {"g2", "g3", "g4"}).overlap_coefficient = 2/3 := by
  have h := C3_overlap_stats_formulas {"g1", "g2", "g3"} {"g2", "g3", "g4"}
  have h1 := h.2.1 (by decide)
  have h2 := h.2.2.2 (by decide) (by decide)
  have hci : (({"g1", "g2", "g3"} : Finset String) ∩ {"g2", "g3", "g4"}).card = 2 := by decide
  have hcu : (({"g1", "g2", "g3"} : Finset String) ∪ {"g2", "g3", "g4"}).card = 4 := by decide
  have hcm : min ({"g1", "g2", "g3"} : Finset String).card
      ({"g2", "g3", "g4"} : Finset String).card = 3 := by decide
  rw [h1, h2, hci, hcu, hcm]
  norm_num

/-- Unfolding of the jaccard field of `overlap_stats`. -/
theorem overlap_stats_jaccard (A B : Finset String) :
    (overlap_stats A B).jaccard =
      if (A ∪ B).card ≠ 0 then ((A ∩ B).card : ℚ) / ((A ∪ B).card : ℚ) else 0 :=
  rfl

/-- Unfolding of the overlap_coefficient field of `overlap_stats`. -/
theorem overlap_stats_oc (A B : Finset String) :
    (overlap_stats A B).overlap_coefficient =
      if min A.card B.card ≠ 0 then
        ((A ∩ B).card : ℚ) / ((min A.card B.card : ℕ) : ℚ)
      else 0 :=
  rfl

/-- C7: jaccard and overlap_coefficient lie in [0,1]; jaccard is symmetric;
jaccard of a nonempty set with itself is 1. -/
theorem C7_overlap_stats_algebra (A B : Finset String) :
    0 ≤ (overlap_stats A B).jaccard ∧ (overlap_stats A B).jaccard ≤ 1 ∧
    0 ≤ (overlap_stats A B).overlap_coefficient ∧
    (overlap_stats A B).overlap_coefficient ≤ 1 ∧
    (overlap_stats A B).jaccard = (overlap_stats B A).jaccard ∧
    (A.Nonempty → (overlap_stats A A).jaccard = 1) := by
  refine ⟨?_, ?_, ?_, ?_, ?_, fun hA => ?_⟩
  · rw [overlap_stats_jaccard]
    split
    · positivity
    · exact le_refl (0 : ℚ)
  · rw [overlap_stats_jaccard]
    split
    · rename_i hu
      rw [div_le_one (by positivity)]
      exact_mod_cast Finset.card_le_card Finset.inter_subset_union
    · exact zero_le_one
  · rw [overlap_stats_oc]
    split
    · positivity
    · exact le_refl (0 : ℚ)
  · rw [overlap_stats_oc]
    split
    · rename_i hm
      rw [div_le_one (by positivity)]
      exact_mod_cast le_min
        (Finset.card_le_card Finset.inter_subset_left)
        (Finset.card_le_card Finset.inter_subset_right)
    · exact zero_le_one
  · rw [overlap_stats_jaccard, overlap_stats_jaccard,
      Finset.inter_comm, Finset.union_comm]
  · have hc : A.card ≠ 0 := by
      simpa [Finset.card_eq_zero] using hA.ne_empty
    rw [overlap_stats_jaccard, Finset.inter_self, Finset.union_self, if_pos hc]
    exact div_self (by exact_mod_cast hc)

/-- Concrete instantiation of C7: jaccard of the nonempty set [g1,g2,g3]
with itself is 1, and the jaccard of the example pair is within bounds. -/
theorem C7_overlap_stats_algebra_witness :
    (overlap_stats {"g1", "g2", "g3"} {"g1", "g2", "g3"}).jaccard = 1 ∧
    (overlap_stats {"g1", "g2", "g3"} {"g2", "g3", "g4"}).jaccard ≤ 1 :=
  ⟨(C7_overlap_stats_algebra {"g1", "g2", "g3"} {"g1", "g2", "g3"}).2.2.2.2.2
      (by decide),
   (C7_overlap_stats_algebra {"g1", "g2", "g3"} {"g2", "g3", "g4"}).2.1⟩

/-- C6: the gene significance filter of process_deseq_file and the GO-term
FDR filter of filter_panther_outputs.py are idempotent. -/
theorem C6_filters_idempotent (lfc_threshold padj_threshold alpha : ℚ)
    (df : List DeseqRow) (go : List GORow) :
    process_deseq_filter lfc_threshold padj_threshold
        (process_deseq_filter lfc_threshold padj_threshold df) =
      process_deseq_filter lfc_threshold padj_threshold df ∧
    panther_sig_filter alpha (panther_sig_filter alpha go) =
      panther_sig_filter alpha go := by
  constructor <;>
    simp [process_deseq_filter, panther_sig_filter, List.filter_filter,
      Bool.and_self]

/-- Membership characterization of the heatmap significance filter:
kept exactly when padj ≤ padj_thresh and |log2FC| ≥ lfc_thresh, both
inclusive. -/
theorem mem_plot_deg_heatmap_filter (padj_thresh lfc_thresh : ℚ)
    (df : List HeatRow) (r : HeatRow) :
    r ∈ plot_deg_heatmap_filter padj_thresh lfc_thresh df ↔
      r ∈ df ∧ r.padj ≤ padj_thresh ∧ lfc_thresh ≤ |r.log2FC| := by
  simp [plot_deg_heatmap_filter, List.mem_filter]

/-- Membership characterization of the process_deseq_file significance
filter: kept exactly when padj is present and strictly below
padj_threshold and |log2FoldChange| is present and at least
lfc_threshold. -/
theorem mem_process_deseq_filter (lfc_threshold padj_threshold : ℚ)
    (df : List DeseqRow) (s : DeseqRow) :
    s ∈ process_deseq_filter lfc_threshold padj_threshold df ↔
      s ∈ df ∧ (∃ p, s.padj = some p ∧ p < padj_threshold) ∧
        (∃ v, s.log2FoldChange = some v ∧ lfc_threshold ≤ |v|) := by
  simp only [process_deseq_filter, List.mem_filter, Bool.and_eq_true]
  cases hp : s.padj <;> cases hv : s.log2FoldChange <;>
    simp [optLtB, optAbsGeB, hp, hv]

/-- C1 counterexample: a row whose padj equals padj_max exactly (padj_max
= 1, lfc_min = 1, padj = 1, log2FoldChange = 2) satisfies the claimed
inclusive predicate yet is dropped by process_deseq_file's filter, which
compares padj strictly; the heatmap variant keeps it. -/
theorem C1_counterexample_strict_padj :
    process_deseq_filter 1 1
        [⟨"g1", some 10, some 2, some 1, some 1, some 1, some 1⟩] = [] ∧
    plot_deg_heatmap_filter 1 1 [⟨"g1", 2, 1⟩] = [⟨"g1", 2, 1⟩] ∧
    ((1 : ℚ) ≤ 1 ∧ (1 : ℚ) ≤ |(2 : ℚ)|) := by
  refine ⟨rfl, rfl, le_refl 1, ?_⟩
  norm_num

/-- C1 amended: the plot_deg_heatmap variant keeps exactly the rows with
padj ≤ padj_max and |log2FC| ≥ lfc_min, both inclusive; the
process_deseq_file variant keeps exactly the rows with padj strictly
below padj_max and |log2FoldChange| ≥ lfc_min, missing values failing
both comparisons. -/
theorem C1_significance_filters (padj_max lfc_min : ℚ)
    (hdf : List HeatRow) (pdf : List DeseqRow) (r : HeatRow) (s : DeseqRow) :
    (r ∈ plot_deg_heatmap_filter padj_max lfc_min hdf ↔
      r ∈ hdf ∧ r.padj ≤ padj_max ∧ lfc_min ≤ |r.log2FC|) ∧
    (s ∈ process_deseq_filter lfc_min padj_max pdf ↔
      s ∈ pdf ∧ (∃ p, s.padj = some p ∧ p < padj_max) ∧
        (∃ v, s.log2FoldChange = some v ∧ lfc_min ≤ |v|)) :=
  ⟨mem_plot_deg_heatmap_filter padj_max lfc_min hdf r,
   mem_process_deseq_filter lfc_min padj_max pdf s⟩

/-- C4 counterexample: with lfc_min = 0 the row (log2FC = 0, padj = 0)
passes the heatmap significance filter and the claimed rule labels it
"up", yet plot_deg_heatmap's sign split places it in neither the up nor
the down set. -/
theorem C4_counterexample_zero_threshold :
    plot_deg_heatmap_filter 1 0 [⟨"g1", 0, 0⟩] = [⟨"g1", 0, 0⟩] ∧
    regulation_label 0 0 = "up" ∧
    deg_up_split (plot_deg_heatmap_filter 1 0 [⟨"g1", 0, 0⟩]) = [] ∧
    deg_down_split (plot_deg_heatmap_filter 1 0 [⟨"g1", 0, 0⟩]) = [] := by
  refine ⟨?_, rfl, ?_, ?_⟩ <;> rfl

/-- C4 amended: for a strictly positive lfc_min, every row passing the
respective significance filter is treated by the rule "up iff
log2FC ≥ lfc_min, down otherwise" in both variants: the heatmap's sign
split places a filtered row in the up set exactly when the rule labels
it "up" and in the down set exactly when the rule labels it "down", and
process_deseq_file's regulation column is "up" exactly when
log2FoldChange ≥ lfc_min and "down" exactly otherwise. -/
theorem C4_regulation_rule (padj_max lfc_min : ℚ) (hpos : 0 < lfc_min)
    (hdf : List HeatRow) (r : HeatRow)
    (hr : r ∈ plot_deg_heatmap_filter padj_max lfc_min hdf)
    (pdf : List DeseqRow) (s : DeseqRow) (v : ℚ)
    (hs : s ∈ process_deseq_filter lfc_min padj_max pdf)
    (hv : s.log2FoldChange = some v) :
    (r ∈ deg_up_split (plot_deg_heatmap_filter padj_max lfc_min hdf) ↔
      regulation_label lfc_min r.log2FC = "up") ∧
    (r ∈ deg_down_split (plot_deg_heatmap_filter padj_max lfc_min hdf) ↔
      regulation_label lfc_min r.log2FC = "down") ∧
    (regulation_label lfc_min v = "up" ↔ lfc_min ≤ v) ∧
    (regulation_label lfc_min v = "down" ↔ v < lfc_min) := by
  have habs : lfc_min ≤ |r.log2FC| :=
    ((mem_plot_deg_heatmap_filter padj_max lfc_min hdf r).mp hr).2.2
  have hupdown : ("up" : String) ≠ "down" := by decide
  have hup_iff : regulation_label lfc_min r.log2FC = "up" ↔ lfc_min ≤ r.log2FC := by
    unfold regulation_label
    split
    · rename_i h; exact iff_of_true rfl h
    · rename_i h; exact iff_of_false (Ne.symm hupdown) h
  have hdown_iff : regulation_label lfc_min r.log2FC = "down" ↔ r.log2FC < lfc_min := by
    unfold regulation_label
    split
    · rename_i h; exact iff_of_false hupdown (not_lt.mpr h)
    · rename_i h; exact iff_of_true rfl (not_le.mp h)
  have hpos_iff : 0 < r.log2FC ↔ lfc_min ≤ r.log2FC := by
    constructor
    · intro h0
      rwa [abs_of_pos h0] at habs
    · intro hle; exact lt_of_lt_of_le hpos hle
  have hneg_iff : r.log2FC < 0 ↔ r.log2FC < lfc_min := by
    constructor
    · intro h0; exact lt_trans h0 hpos
    · intro hlt
      by_contra hge
      push_neg at hge
      rw [abs_of_nonneg hge] at habs
      exact absurd (lt_of_lt_of_le hlt habs) (lt_irrefl _)
  refine ⟨?_, ?_, ?_, ?_⟩
  · rw [hup_iff, deg_up_split, List.mem_filter]
    simp only [hr, true_and, decide_eq_true_eq]
    exact hpos_iff
  · rw [hdown_iff, deg_down_split, List.mem_filter]
    simp only [hr, true_and, decide_eq_true_eq]
    exact hneg_iff
  · unfold regulation_label
    split
    · rename_i h; exact iff_of_true rfl h
    · rename_i h; exact iff_of_false (Ne.symm hupdown) h
  · unfold regulation_label
    split
    · rename_i h; exact iff_of_false hupdown (not_lt.mpr h)
    · rename_i h; exact iff_of_true rfl (not_le.mp h)

/-- Concrete instantiation of the amended C4 at lfc_min = 2: the filtered
heat row (log2FC = 3) sits in the up split exactly as the rule labels it,
and the filtered process row (log2FoldChange = -3) is labelled "down". -/
theorem C4_regulation_rule_witness :
    ((⟨"g", 3, 0⟩ : HeatRow) ∈
        deg_up_split (plot_deg_heatmap_filter 1 2 [⟨"g", 3, 0⟩]) ↔
      regulation_label 2 (3 : ℚ) = "up") ∧
    ((⟨"g", 3, 0⟩ : HeatRow) ∈
        deg_down_split (plot_deg_heatmap_filter 1 2 [⟨"g", 3, 0⟩]) ↔
      regulation_label 2 (3 : ℚ) = "down") ∧
    (regulation_label 2 (-3 : ℚ) = "up" ↔ (2 : ℚ) ≤ -3) ∧
    (regulation_label 2 (-3 : ℚ) = "down" ↔ (-3 : ℚ) < 2) := by
  have h := C4_regulation_rule 1 2 (by norm_num) [⟨"g", 3, 0⟩] ⟨"g", 3, 0⟩
    (by decide) [⟨"p", none, some (-3), none, none, none, some 0⟩]
    ⟨"p", none, some (-3), none, none, none, some 0⟩ (-3) (by decide) rfl
  exact h

/-- C5 counterexample: a headerless first line of 8 unknown tokens gives
a column count outside the claimed set, yet load_deseq2_tabular succeeds
and assigns the 7 positional names to the first 7 columns. -/
theorem C5_counterexample_eight_columns :
    header_like ["a", "b", "c", "d", "e", "f", "g", "h"] = false ∧
    load_deseq2_names ["a", "b", "c", "d", "e", "f", "g", "h"] 8 =
      Except.ok deseq7_names ∧
    ¬((8 : ℕ) = 6 ∨ (8 : ℕ) = 7) := by
  refine ⟨rfl, rfl, by decide⟩

/-- C5 amended: for a headerless first data line, the loader fails with a
format error exactly when the column count is below 6; with 7 or more
columns it keeps the first 7 and assigns the fixed 7-name layout, and
with exactly 6 columns it assigns the 6-name layout. -/
theorem C5_headerless_column_names (tokens : List String) (ncols : ℕ)
    (h : header_like tokens = false) :
    (isErr (load_deseq2_names tokens ncols) = true ↔ ncols < 6) ∧
    (7 ≤ ncols → load_deseq2_names tokens ncols = Except.ok deseq7_names) ∧
    (ncols = 6 → load_deseq2_names tokens ncols = Except.ok deseq6_names) := by
  have hload : load_deseq2_names tokens ncols = assign_headerless_names ncols := by
    unfold load_deseq2_names
    rw [h]
    simp
  rw [hload]
  unfold assign_headerless_names
  refine ⟨?_, fun h7 => ?_, fun h6 => ?_⟩
  · by_cases h7 : 7 ≤ ncols
    · rw [if_pos h7]
      simp [isErr]
      omega
    · rw [if_neg h7]
      by_cases h6 : ncols = 6
      · rw [if_pos h6]
        simp [isErr]
        omega
      · rw [if_neg h6]
        simp [isErr]
        omega
  · rw [if_pos h7]
  · rw [if_neg (by omega), if_pos h6]

/-- Concrete instantiation of the amended C5: 6 unknown tokens get the
6-name layout and a 2-column file is rejected. -/
theorem C5_headerless_column_names_witness :
    load_deseq2_names ["a", "b", "c", "d", "e", "f"] 6 = Except.ok deseq6_names ∧
    isErr (load_deseq2_names ["a", "b"] 2) = true :=
  ⟨(C5_headerless_column_names ["a", "b", "c", "d", "e", "f"] 6 (by decide)).2.2 rfl,
   (C5_headerless_column_names ["a", "b"] 2 (by decide)).1.mpr (by omega)⟩

/-- The maximum of a nonempty list is one of its elements. -/
theorem listMaxQ_mem : ∀ (l : List ℚ), l ≠ [] → listMaxQ l ∈ l
  | [], h => absurd rfl h
  | [x], _ => by simp [listMaxQ]
  | x :: y :: xs, _ => by
      have ih := listMaxQ_mem (y :: xs) (by simp)
      rw [listMaxQ]
      rcases le_total x (listMaxQ (y :: xs)) with h | h
      · rw [max_eq_right h]
        exact List.mem_cons_of_mem _ ih
      · rw [max_eq_left h]
        exact List.mem_cons_self _ _

/-- Every element of a list is at most its maximum. -/
theorem le_listMaxQ : ∀ (l : List ℚ) (x : ℚ), x ∈ l → x ≤ listMaxQ l
  | [], _, h => absurd h (List.not_mem_nil _)
  | [y], x, h => by
      rw [List.mem_singleton] at h
      simp [listMaxQ, h]
  | y :: z :: xs, x, h => by
      rw [listMaxQ]
      rcases List.mem_cons.mp h with rfl | h'
      · exact le_max_left _ _
      · exact le_trans (le_listMaxQ (z :: xs) x h') (le_max_right _ _)

/-- C9: the colour-scale bound of plot_deg_heatmap is 1 on an empty or
all-zero matrix; otherwise it is the largest absolute value present; and
the scale is symmetric around zero. -/
theorem C9_vmax_colour_scale (m : List (List ℚ)) :
    ((m.flatten = [] ∨ ∀ x ∈ m.flatten, x = 0) → vmax m = 1) ∧
    ((∃ x ∈ m.flatten, x ≠ 0) →
      (∃ y ∈ m.flatten, |y| = vmax m) ∧ ∀ x ∈ m.flatten, |x| ≤ vmax m) ∧
    vmin m = -vmax m := by
  refine ⟨fun h => ?_, fun h => ?_, rfl⟩
  · by_cases hfl : m.flatten = []
    · unfold vmax vmax_raw
      rw [hfl]
      simp
    · have hz : ∀ x ∈ m.flatten, x = 0 := h.resolve_left hfl
      have hraw : vmax_raw m = 0 := by
        unfold vmax_raw
        rw [if_neg (by simpa [List.isEmpty_iff] using hfl)]
        have hmem := listMaxQ_mem (m.flatten.map fun x => |x|) (by simpa using hfl)
        obtain ⟨y, hy, hval⟩ := List.mem_map.mp hmem
        rw [← hval, hz y hy, abs_zero]
      unfold vmax
      rw [if_pos hraw]
  · obtain ⟨x0, hx0mem, hx0⟩ := h
    have hfl : m.flatten ≠ [] := by
      intro hc
      rw [hc] at hx0mem
      exact List.not_mem_nil x0 hx0mem
    have hraw : vmax_raw m = listMaxQ (m.flatten.map fun x => |x|) := by
      unfold vmax_raw
      rw [if_neg (by simpa [List.isEmpty_iff] using hfl)]
    have hub : ∀ x ∈ m.flatten, |x| ≤ vmax_raw m := by
      intro x hx
      rw [hraw]
      exact le_listMaxQ _ _ (List.mem_map_of_mem _ hx)
    have hrawpos : vmax_raw m ≠ 0 := by
      have h1 : |x0| ≤ vmax_raw m := hub x0 hx0mem
      have h2 : 0 < |x0| := abs_pos.mpr hx0
      exact ne_of_gt (lt_of_lt_of_le h2 h1)
    have hvm : vmax m = vmax_raw m := by
      unfold vmax
      rw [if_neg hrawpos]
    refine ⟨?_, fun x hx => hvm ▸ hub x hx⟩
    have hmem := listMaxQ_mem (m.flatten.map fun x => |x|) (by simpa using hfl)
    obtain ⟨y, hy, hval⟩ := List.mem_map.mp hmem
    exact ⟨y, hy, by rw [hval, hvm, hraw]⟩

/-- Concrete instantiation of C9: all-zero matrix gets bound 1; the
matrix [[0, 3], [-5]] gets bound 5 attained at -5 and dominating all
entries. -/
theorem C9_vmax_colour_scale_witness :
    vmax [[0, 0], [0]] = 1 ∧
    (∃ y ∈ ([[0, 3], [-5]] : List (List ℚ)).flatten, |y| = vmax [[0, 3], [-5]]) ∧
    (∀ x ∈ ([[0, 3], [-5]] : List (List ℚ)).flatten, |x| ≤ vmax [[0, 3], [-5]]) := by
  refine ⟨(C9_vmax_colour_scale [[0, 0], [0]]).1 (Or.inr (by decide)),
    (C9_vmax_colour_scale [[0, 3], [-5]]).2.1 ⟨3, by simp, by norm_num⟩⟩


/-- If find? returns a hit, the predicate holds for it (specialized to
the regulation-column search). -/
theorem find?_pred_holds {p : String → Bool} {l : List String} {a : String}
    (h : l.find? p = some a) : p a = true :=
  List.find?_some h

/-- C10: save_up_down raises exactly when no column starts with
"regulation"; when some regulation column ends with the dataset tag, a
regulation column ending with the tag is chosen; when none does, the
first regulation column in column order is chosen. -/
theorem C10_save_up_down_column_choice (cols : List String) (tag : String) :
    (isErr (save_up_down_reg_col cols tag) = true ↔ reg_cols cols = []) ∧
    (∀ c ∈ cols, py_startswith c "regulation" = true → py_endswith c tag = true →
      ∃ out, save_up_down_reg_col cols tag = Except.ok out ∧
        out ∈ cols ∧ py_startswith out "regulation" = true ∧
        py_endswith out tag = true) ∧
    ((∀ c ∈ cols, ¬(py_startswith c "regulation" = true ∧ py_endswith c tag = true)) →
      ∀ c0 rest, reg_cols cols = c0 :: rest →
        save_up_down_reg_col cols tag = Except.ok c0) := by
  have hexpand : ∀ c0 rest, reg_cols cols = c0 :: rest →
      save_up_down_reg_col cols tag =
        Except.ok (((c0 :: rest).find? fun c => py_endswith c tag).getD c0) := by
    intro c0 rest hrc
    unfold save_up_down_reg_col
    rw [hrc]
  refine ⟨?_, ?_, ?_⟩
  · unfold save_up_down_reg_col
    cases hrc : reg_cols cols with
    | nil => simp [isErr]
    | cons c0 rest => simp [isErr]
  · intro c hc hstart hend
    have hcreg : c ∈ reg_cols cols := by
      rw [reg_cols, List.mem_filter]
      exact ⟨hc, hstart⟩
    cases hrc : reg_cols cols with
    | nil => rw [hrc] at hcreg; exact absurd hcreg (List.not_mem_nil c)
    | cons c0 rest =>
        rw [hrc] at hcreg
        have hfind : ((c0 :: rest).find? fun x => py_endswith x tag).isSome = true := by
          rw [Option.isSome_iff_ne_none]
          intro hnone
          exact (List.find?_eq_none.mp hnone c hcreg) hend
        obtain ⟨out, hout⟩ := Option.isSome_iff_exists.mp hfind
        have houtmem : out ∈ (c0 :: rest) := List.mem_of_find?_eq_some hout
        have houtend := find?_pred_holds hout
        have houtreg : out ∈ reg_cols cols := hrc ▸ houtmem
        have houtfilter := List.mem_filter.mp houtreg
        refine ⟨out, ?_, houtfilter.1, houtfilter.2, houtend⟩
        rw [hexpand c0 rest hrc, hout]
        rfl
  · intro hnone c0 rest hrc
    have hfind : ((c0 :: rest).find? fun x => py_endswith x tag) = none := by
      rw [List.find?_eq_none]
      intro x hx
      have hxf := List.mem_filter.mp (hrc ▸ hx : x ∈ reg_cols cols)
      intro hxe
      exact hnone x hxf.1 ⟨hxf.2, hxe⟩
    rw [hexpand c0 rest hrc, hfind]
    rfl

/-- Concrete instantiation of C10 on the merged "both" table, whose
columns carry regulation_salt and regulation_heat: for tag "both" no
regulation column ends with the tag and the salt-side column (first in
column order) decides the split; for tag "heat" the heat-side column is
chosen. -/
theorem C10_save_up_down_column_choice_witness :
    save_up_down_reg_col
        ["gene_id", "log2FoldChange_salt", "padj_salt", "regulation_salt",
          "log2FoldChange_heat", "padj_heat", "regulation_heat"] "both" =
      Except.ok "regulation_salt" ∧
    (∃ out, save_up_down_reg_col
        ["gene_id", "log2FoldChange_salt", "padj_salt", "regulation_salt",
          "log2FoldChange_heat", "padj_heat", "regulation_heat"] "heat" =
      Except.ok out ∧
      out ∈ ["gene_id", "log2FoldChange_salt", "padj_salt", "regulation_salt",
        "log2FoldChange_heat", "padj_heat", "regulation_heat"] ∧
      py_startswith out "regulation" = true ∧ py_endswith out "heat" = true) := by
  constructor
  · exact (C10_save_up_down_column_choice
        ["gene_id", "log2FoldChange_salt", "padj_salt", "regulation_salt",
          "log2FoldChange_heat", "padj_heat", "regulation_heat"] "both").2.2
      (by decide) "regulation_salt" ["regulation_heat"] (by decide)
  · exact (C10_save_up_down_column_choice
        ["gene_id", "log2FoldChange_salt", "padj_salt", "regulation_salt",
          "log2FoldChange_heat", "padj_heat", "regulation_heat"] "heat").2.1
      "regulation_heat" (by decide) (by decide) (by decide)

/-- The nsmallest ordering is transitive. -/
theorem fdrPosLe_trans (a b c : ℕ × GORow) (hab : fdrPosLe a b = true)
    (hbc : fdrPosLe b c = true) : fdrPosLe a c = true := by
  simp only [fdrPosLe, Bool.or_eq_true, Bool.and_eq_true, decide_eq_true_eq] at *
  rcases hab with h1 | ⟨h1, h1i⟩ <;> rcases hbc with h2 | ⟨h2, h2i⟩
  · exact Or.inl (lt_trans h1 h2)
  · exact Or.inl (h2 ▸ h1)
  · exact Or.inl (h1 ▸ h2)
  · exact Or.inr ⟨h1.trans h2, le_trans h1i h2i⟩

/-- The nsmallest ordering is total. -/
theorem fdrPosLe_total (a b : ℕ × GORow) :
    (fdrPosLe a b || fdrPosLe b a) = true := by
  simp only [fdrPosLe, Bool.or_eq_true, Bool.and_eq_true, decide_eq_true_eq]
  rcases lt_trichotomy a.2.FDR b.2.FDR with h | h | h
  · exact Or.inl (Or.inl h)
  · rcases le_total a.1 b.1 with hi | hi
    · exact Or.inl (Or.inr ⟨h, hi⟩)
    · exact Or.inr (Or.inr ⟨h.symm, hi⟩)
  · exact Or.inr (Or.inl h)

/-- C8: when n is at least the number of rows, nsmallest returns all the
rows (a permutation of the input, no error), and the underlying
position-decorated ranking is sorted by ascending FDR with ties broken
by ascending original position. -/
theorem C8_nsmallest_all_rows (n : ℕ) (df : List GORow) (hn : df.length ≤ n) :
    (nsmallest n df).Perm df ∧
    List.Pairwise
      (fun a b => a.2.FDR < b.2.FDR ∨ (a.2.FDR = b.2.FDR ∧ a.1 ≤ b.1))
      (nsmallest_ranked n df) := by
  constructor
  · have hperm : (df.enum.mergeSort fdrPosLe).Perm df.enum :=
      List.mergeSort_perm _ _
    have hlen : (df.enum.mergeSort fdrPosLe).length = df.length := by
      rw [hperm.length_eq, List.enum_length]
    have htake : nsmallest_ranked n df = df.enum.mergeSort fdrPosLe := by
      unfold nsmallest_ranked
      exact List.take_of_length_le (hlen ▸ hn)
    unfold nsmallest
    rw [htake]
    have hmap := hperm.map Prod.snd
    rwa [List.enum_map_snd] at hmap
  · have hs := List.sorted_mergeSort
      (fun a b c => fdrPosLe_trans a b c)
      fdrPosLe_total df.enum
    have htake := List.Pairwise.sublist
      (List.take_sublist n (df.enum.mergeSort fdrPosLe)) hs
    refine htake.imp ?_
    intro a b hab
    simpa only [fdrPosLe, Bool.or_eq_true, Bool.and_eq_true,
      decide_eq_true_eq] using hab

/-- Concrete instantiation of C8: three rows with tied FDR values, asked
for the top 15, come back as a permutation of the whole input with the
decorated ranking sorted ascending and ties in input order. -/
theorem C8_nsmallest_all_rows_witness :
    (nsmallest 15 [⟨"t1", 2⟩, ⟨"t2", 1⟩, ⟨"t3", 1⟩]).Perm
      [⟨"t1", 2⟩, ⟨"t2", 1⟩, ⟨"t3", 1⟩] ∧
    List.Pairwise
      (fun a b => a.2.FDR < b.2.FDR ∨ (a.2.FDR = b.2.FDR ∧ a.1 ≤ b.1))
      (nsmallest_ranked 15 [⟨"t1", 2⟩, ⟨"t2", 1⟩, ⟨"t3", 1⟩]) :=
  C8_nsmallest_all_rows 15 [⟨"t1", 2⟩, ⟨"t2", 1⟩, ⟨"t3", 1⟩] (by decide)

/-- The merged row of a salt row keeps its gene_id. -/
theorem mergeLeftRow_gene_id (sig_heat : List SigRow) (s : SigRow) :
    (mergeLeftRow sig_heat s).gene_id = s.gene_id := by
  unfold mergeLeftRow
  cases findRow sig_heat s.gene_id <;> rfl

/-- The merged row of a salt row keeps its log2FoldChange on the salt
side. -/
theorem mergeLeftRow_lfc_salt (sig_heat : List SigRow) (s : SigRow) :
    (mergeLeftRow sig_heat s).log2FoldChange_salt = s.log2FoldChange := by
  unfold mergeLeftRow
  cases findRow sig_heat s.gene_id <;> rfl

/-- Join-key column of the outer merge: the salt keys followed by the
unmatched heat keys. -/
theorem merge_outer_map_gene_id (sig_salt sig_heat : List SigRow) :
    (merge_outer sig_salt sig_heat).map MergedRow.gene_id =
      sig_salt.map SigRow.gene_id ++
        (sig_heat.filter fun h => (findRow sig_salt h.gene_id).isNone).map
          SigRow.gene_id := by
  unfold merge_outer
  rw [List.map_append, List.map_map, List.map_map]
  congr 1
  exact List.map_congr_left fun s _ => mergeLeftRow_gene_id sig_heat s

/-- The join partner lookup fails exactly when the key is absent from the
table's gene_id column. -/
theorem findRow_eq_none_iff (df : List SigRow) (g : String) :
    findRow df g = none ↔ g ∉ df.map SigRow.gene_id := by
  unfold findRow
  rw [List.find?_eq_none]
  constructor
  · intro h hmem
    obtain ⟨r, hr, hrg⟩ := List.mem_map.mp hmem
    exact h r hr (by simp [hrg])
  · intro h r hr
    simp only [decide_eq_true_eq]
    intro hrg
    exact h (hrg ▸ List.mem_map_of_mem SigRow.gene_id hr)

/-- With unique keys on both sides, the merged key column is duplicate
free. -/
theorem merge_outer_ids_nodup (sig_salt sig_heat : List SigRow)
    (hs : (sig_salt.map SigRow.gene_id).Nodup)
    (hh : (sig_heat.map SigRow.gene_id).Nodup) :
    ((merge_outer sig_salt sig_heat).map MergedRow.gene_id).Nodup := by
  rw [merge_outer_map_gene_id]
  apply List.Nodup.append hs
  · exact List.Nodup.sublist
      ((List.filter_sublist sig_heat).map SigRow.gene_id) hh
  · intro g hg1 hg2
    obtain ⟨r, hr, rfl⟩ := List.mem_map.mp hg2
    have hfil := (List.mem_filter.mp hr).2
    rw [Option.isNone_iff_eq_none, findRow_eq_none_iff] at hfil
    exact hfil hg1

/-- The merged key set is exactly the union of the two input key sets. -/
theorem merge_outer_ids_toFinset (sig_salt sig_heat : List SigRow) :
    ((merge_outer sig_salt sig_heat).map MergedRow.gene_id).toFinset =
      (sig_salt.map SigRow.gene_id).toFinset ∪
        (sig_heat.map SigRow.gene_id).toFinset := by
  rw [merge_outer_map_gene_id, List.toFinset_append]
  apply Finset.Subset.antisymm
  · apply Finset.union_subset_union (subset_refl _)
    intro g hg
    rw [List.mem_toFinset] at hg ⊢
    obtain ⟨r, hr, rfl⟩ := List.mem_map.mp hg
    exact List.mem_map_of_mem _ (List.mem_of_mem_filter hr)
  · apply Finset.union_subset Finset.subset_union_left
    intro g hg
    rw [List.mem_toFinset] at hg
    obtain ⟨r, hr, rfl⟩ := List.mem_map.mp hg
    by_cases hin : r.gene_id ∈ sig_salt.map SigRow.gene_id
    · exact Finset.mem_union_left _ (List.mem_toFinset.mpr hin)
    · apply Finset.mem_union_right
      rw [List.mem_toFinset]
      apply List.mem_map_of_mem
      rw [List.mem_filter]
      exact ⟨hr, by rw [Option.isNone_iff_eq_none, findRow_eq_none_iff]; exact hin⟩

/-- When both input tables carry non-null log2FoldChange, every merged
row has a value on at least one side. -/
theorem merge_outer_lfc_present (sig_salt sig_heat : List SigRow)
    (hnsalt : ∀ r ∈ sig_salt, r.log2FoldChange.isSome = true)
    (hnheat : ∀ r ∈ sig_heat, r.log2FoldChange.isSome = true) :
    ∀ m ∈ merge_outer sig_salt sig_heat,
      m.log2FoldChange_salt.isSome = true ∨
        m.log2FoldChange_heat.isSome = true := by
  intro m hm
  rcases List.mem_append.mp hm with h | h
  · obtain ⟨s, hsmem, rfl⟩ := List.mem_map.mp h
    left
    rw [mergeLeftRow_lfc_salt]
    exact hnsalt s hsmem
  · obtain ⟨h1, hfil, rfl⟩ := List.mem_map.mp h
    right
    exact hnheat h1 (List.mem_of_mem_filter hfil)

/-- The three dropna/isna filters of sort_gene_sets cover a merged table
whose rows all carry a value on at least one side. -/
theorem partition_length (l : List MergedRow)
    (hex : ∀ m ∈ l, m.log2FoldChange_salt.isSome = true ∨
        m.log2FoldChange_heat.isSome = true) :
    (both_genes l).length + (only_salt_genes l).length +
        (only_heat_genes l).length = l.length := by
  induction l with
  | nil => rfl
  | cons r t ih =>
      have hr := hex r (List.mem_cons_self r t)
      have ih' := ih fun m hm => hex m (List.mem_cons_of_mem r hm)
      unfold both_genes only_salt_genes only_heat_genes at ih' ⊢
      cases hrs : r.log2FoldChange_salt <;> cases hrh : r.log2FoldChange_heat <;>
        rw [hrs, hrh] at hr <;>
        simp [List.filter_cons, hrs, hrh] <;>
        first
          | (exfalso; simpa using hr)
          | omega

/-- Two row-exclusive filters of a table with duplicate-free keys select
disjoint key sets. -/
theorem filter_ids_disjoint {p q : MergedRow → Bool} (l : List MergedRow)
    (hnd : (l.map MergedRow.gene_id).Nodup)
    (hpq : ∀ r, ¬(p r = true ∧ q r = true)) :
    ((l.filter p).map MergedRow.gene_id).toFinset ∩
      ((l.filter q).map MergedRow.gene_id).toFinset = ∅ := by
  rw [Finset.eq_empty_iff_forall_not_mem]
  intro g hg
  rw [Finset.mem_inter, List.mem_toFinset, List.mem_toFinset] at hg
  obtain ⟨r1, hr1, hg1⟩ := List.mem_map.mp hg.1
  obtain ⟨r2, hr2, hg2⟩ := List.mem_map.mp hg.2
  have hm1 := List.mem_filter.mp hr1
  have hm2 := List.mem_filter.mp hr2
  have heq : r1 = r2 :=
    List.inj_on_of_nodup_map hnd hm1.1 hm2.1 (hg1.trans hg2.symm)
  exact hpq r1 ⟨hm1.2, heq ▸ hm2.2⟩

/-- C2: for input tables with unique gene_id keys and non-null
log2FoldChange, sort_gene_sets splits the outer-joined rows into three
tables whose sizes add up to the size of the union of the two gene_id
sets, with pairwise disjoint gene_id sets. -/
theorem C2_sort_gene_sets_partition (sig_salt sig_heat : List SigRow)
    (hs : (sig_salt.map SigRow.gene_id).Nodup)
    (hh : (sig_heat.map SigRow.gene_id).Nodup)
    (hnsalt : ∀ r ∈ sig_salt, r.log2FoldChange.isSome = true)
    (hnheat : ∀ r ∈ sig_heat, r.log2FoldChange.isSome = true) :
    (both_genes (merge_outer sig_salt sig_heat)).length +
        (only_salt_genes (merge_outer sig_salt sig_heat)).length +
        (only_heat_genes (merge_outer sig_salt sig_heat)).length =
      ((sig_salt.map SigRow.gene_id).toFinset ∪
        (sig_heat.map SigRow.gene_id).toFinset).card ∧
    ((both_genes (merge_outer sig_salt sig_heat)).map
          MergedRow.gene_id).toFinset ∩
        ((only_salt_genes (merge_outer sig_salt sig_heat)).map
          MergedRow.gene_id).toFinset = ∅ ∧
    ((both_genes (merge_outer sig_salt sig_heat)).map
          MergedRow.gene_id).toFinset ∩
        ((only_heat_genes (merge_outer sig_salt sig_heat)).map
          MergedRow.gene_id).toFinset = ∅ ∧
    ((only_salt_genes (merge_outer sig_salt sig_heat)).map
          MergedRow.gene_id).toFinset ∩
        ((only_heat_genes (merge_outer sig_salt sig_heat)).map
          MergedRow.gene_id).toFinset = ∅ := by
  have hnd := merge_outer_ids_nodup sig_salt sig_heat hs hh
  refine ⟨?_, ?_, ?_, ?_⟩
  · rw [partition_length (merge_outer sig_salt sig_heat)
      (merge_outer_lfc_present sig_salt sig_heat hnsalt hnheat)]
    rw [← merge_outer_ids_toFinset,
      List.toFinset_card_of_nodup hnd, List.length_map]
  · apply filter_ids_disjoint (merge_outer sig_salt sig_heat) hnd
    intro r ⟨h1, h2⟩
    rw [Bool.and_eq_true] at h1 h2
    rw [Option.isNone_iff_eq_none] at h2
    rw [h2.1] at h1
    exact absurd h1.2 (by simp)
  · apply filter_ids_disjoint (merge_outer sig_salt sig_heat) hnd
    intro r ⟨h1, h2⟩
    rw [Bool.and_eq_true] at h1 h2
    rw [Option.isNone_iff_eq_none] at h2
    rw [h2.1] at h1
    exact absurd h1.1 (by simp)
  · apply filter_ids_disjoint (merge_outer sig_salt sig_heat) hnd
    intro r ⟨h1, h2⟩
    rw [Bool.and_eq_true] at h1 h2
    rw [Option.isNone_iff_eq_none] at h2
    rw [h2.1] at h1
    exact absurd h1.2 (by simp)

/-- The salt-side example table of the spec: significant genes g1, g2,
g3 with unique ids and non-null log2FoldChange. -/
def sig_salt_example : List SigRow :=
  [⟨"g1", some 2, some 1, some "up"⟩,
   ⟨"g2", some 3, some 1, some "up"⟩,
   ⟨"g3", some (-2), some 1, some "down"⟩]

/-- The heat-side example table of the spec: significant genes g2, g3,
g4 with unique ids and non-null log2FoldChange. -/
def sig_heat_example : List SigRow :=
  [⟨"g2", some 1, some 1, some "up"⟩,
   ⟨"g3", some (-1), some 1, some "down"⟩,
   ⟨"g4", some 5, some 1, some "up"⟩]

/-- Concrete instantiation of C2 on the spec example (salt = g1,g2,g3
and heat = g2,g3,g4): the three partition sizes add up to the union size
4 and the partitions carry pairwise disjoint gene_id sets. -/
theorem C2_sort_gene_sets_partition_witness :
    (both_genes (merge_outer sig_salt_example sig_heat_example)).length +
        (only_salt_genes (merge_outer sig_salt_example sig_heat_example)).length +
        (only_heat_genes (merge_outer sig_salt_example sig_heat_example)).length =
      ((sig_salt_example.map SigRow.gene_id).toFinset ∪
        (sig_heat_example.map SigRow.gene_id).toFinset).card ∧
    ((both_genes (merge_outer sig_salt_example sig_heat_example)).map
          MergedRow.gene_id).toFinset ∩
        ((only_salt_genes (merge_outer sig_salt_example sig_heat_example)).map
          MergedRow.gene_id).toFinset = ∅ ∧
    ((both_genes (merge_outer sig_salt_example sig_heat_example)).map
          MergedRow.gene_id).toFinset ∩
        ((only_heat_genes (merge_outer sig_salt_example sig_heat_example)).map
          MergedRow.gene_id).toFinset = ∅ ∧
    ((only_salt_genes (merge_outer sig_salt_example sig_heat_example)).map
          MergedRow.gene_id).toFinset ∩
        ((only_heat_genes (merge_outer sig_salt_example sig_heat_example)).map
          MergedRow.gene_id).toFinset = ∅ :=
  C2_sort_gene_sets_partition sig_salt_example sig_heat_example
    (by decide) (by decide) (by decide) (by decide)
